import Mathlib

/-!
Verification development for the `lox-rust` tree-walking interpreter.

The definitions below are a shallow embedding of the Rust sources:

* `src/token.rs`    → `TokenType`, `LiteralType`, `Token`, `Value`
* `src/expr.rs`     → `Expr`, `Stmt` (the per-variant wrapper structs of the
  Rust AST are flattened into constructor fields; Rust's derived structural
  `PartialEq`/`Hash` on expressions becomes structural equality of `Expr`)
* `src/environment.rs` → the `EnvChain` namespace (an environment together
  with its chain of `enclosing` links is modelled as the list of its frames,
  innermost first; `RefCell` mutation becomes returning the updated chain)
* `src/interpreter.rs` and `src/callable.rs` → the `Interp` namespace
  (shared `Rc<Environment>` nodes are modelled as indices into an arena of
  frames, so mutation through a shared environment is visible to every
  holder, exactly as with `Rc<RefCell<_>>`)
* `src/resolver.rs` → the `Resolve` namespace
* `src/lox.rs`      → `Lox.run`

Numbers: the Rust `f64` payload is modelled as `Int`.  Every concrete
program appearing in this development computes only with small integers
(additions, comparisons, a division-by-zero guard), on which `f64`
arithmetic is exact, so the substitution is behaviour-preserving for
everything stated here.

Rust panics (`panic!`, `.unwrap()` on `None`) abort the process; they are
modelled by the dedicated `LoxError.Crash` outcome, which no
interpreter-level handler catches.
-/

namespace LoxModel

/-- Token kinds, from `src/token.rs` (`enum TokenType`). -/
inductive TokenType where
  | LEFT_PAREN | RIGHT_PAREN | LEFT_BRACE | RIGHT_BRACE
  | COMMA | DOT | MINUS | PLUS | SEMICOLON | SLASH | STAR
  | BANG | BANG_EQUAL | EQUAL | EQUAL_EQUAL
  | GREATER | GREATER_EQUAL | LESS | LESS_EQUAL
  | IDENTIFIER | STRING | NUMBER
  | BREAK | CONTINUE | AND | CLASS | ELSE | FALSE | FUN | FOR
  | IF | NIL | OR | PRINT | RETURN | SUPER | THIS | TRUE | VAR | WHILE | EOF
deriving DecidableEq, Repr

/-- Literal payloads, from `src/token.rs` (`enum LiteralType`); `f64` is
modelled as `Int` (see the header comment). -/
inductive LiteralType where
  | String (s : String)
  | Number (n : Int)
  | Bool (b : Bool)
  | Nil
deriving DecidableEq, Repr

/-- `Token` from `src/token.rs`. -/
structure Token where
  type_ : TokenType
  lexeme : String
  line : Nat
  literal : Option LiteralType
deriving DecidableEq, Repr

/-- The expression AST from `src/expr.rs`.  Each Rust variant holds a wrapper
struct (`Binary`, `Grouping`, ...); the wrapper fields are inlined here in
source order.  Rust derives structural `PartialEq` on `Expr`, which is
structural equality of this type. -/
inductive Expr where
  | Binary (left : Expr) (operator : Token) (right : Expr)
  | Grouping (expression : Expr)
  | Literal (value : LiteralType)
  | Unary (operator : Token) (right : Expr)
  | Variable (name : Token)
  | Assignment (name : Token) (value : Expr)
  | Get (object : Expr) (name : Token)
  | Set (object : Expr) (name : Token) (value : Expr)
  | This (keyword : Token)
  | Call (callee : Expr) (paren : Token) (arguments : List Expr)
  | OR (left : Expr) (operator : Token) (right : Expr)
  | AND (left : Expr) (operator : Token) (right : Expr)
deriving Repr

/-- The statement AST from `src/expr.rs`, wrapper structs inlined. -/
inductive Stmt where
  | Print (expression : Expr)
  | Expression (expression : Expr)
  | IfStatement (condition : Expr) (then_branch : Stmt) (else_branch : Option Stmt)
  | VarDeclaration (name : Token) (initializer : Option Expr)
  | Block (statements : List Stmt)
  | WhileStmt (condition : Expr) (body : Stmt)
  | ForStmt (initializer : Option Stmt) (condition : Option Expr)
      (increment : Option Expr) (body : Stmt)
  | BreakStmt
  | ContinueStmt
  | FunctionStmt (name : Token) (params : List Token) (body : List Stmt)
  | ReturnStmt (keyword : Token) (value : Option Expr)
  | ClassDecl (name : Token) (methods : List (Token × List Token × List Stmt))
deriving Repr

mutual

/-- Structural equality of expressions: the derived `PartialEq for Expr` of
`src/expr.rs` (derived through the wrapper structs, hence fieldwise). -/
def exprEq : Expr → Expr → Bool
  | .Binary l o r, .Binary l2 o2 r2 => exprEq l l2 && o == o2 && exprEq r r2
  | .Grouping e, .Grouping e2 => exprEq e e2
  | .Literal v, .Literal v2 => v == v2
  | .Unary o r, .Unary o2 r2 => o == o2 && exprEq r r2
  | .Variable n, .Variable n2 => n == n2
  | .Assignment n v, .Assignment n2 v2 => n == n2 && exprEq v v2
  | .Get o n, .Get o2 n2 => exprEq o o2 && n == n2
  | .Set o n v, .Set o2 n2 v2 => exprEq o o2 && n == n2 && exprEq v v2
  | .This k, .This k2 => k == k2
  | .Call c p a, .Call c2 p2 a2 => exprEq c c2 && p == p2 && exprListEq a a2
  | .OR l o r, .OR l2 o2 r2 => exprEq l l2 && o == o2 && exprEq r r2
  | .AND l o r, .AND l2 o2 r2 => exprEq l l2 && o == o2 && exprEq r r2
  | _, _ => false

/-- Elementwise equality of `Vec<Expr>` (derived `PartialEq`). -/
def exprListEq : List Expr → List Expr → Bool
  | [], [] => true
  | x :: xs, y :: ys => exprEq x y && exprListEq xs ys
  | _, _ => false

end

/-- A user function value, from `src/callable.rs` (`struct LoxFunction`).
`closure` is the captured environment, an index into the interpreter's
environment arena (the model of `Rc<Environment>`). -/
structure LoxFunctionM where
  name : String
  params : List String
  body : List Stmt
  closure : Nat
  is_initializer : Bool
deriving Repr

/-- `enum LoxCallable` from `src/callable.rs`.  A `NativeFunction`'s Rust
function pointer cannot occur inside `Value` (it would make the type
non-positive); only its name and arity are kept, and the sole registered
native (`clock`, which reads the host clock) is given the dedicated
unmodelled-call outcome in the evaluator. -/
inductive LoxCallableM where
  | NativeFunction (name : String) (arity : Nat)
  | LoxFunction (f : LoxFunctionM)
deriving Repr

/-- `struct LoxClass` from `src/callable.rs`: a name and a method table. -/
structure LoxClassM where
  name : String
  methods : List (String × LoxFunctionM)
deriving Repr

/-- Runtime values, from `src/token.rs` (`enum Value`).  `Instance` holds the
identity of its `Rc<RefCell<LoxInstance>>` cell, an index into an instance
arena. -/
inductive Value where
  | String (s : String)
  | Number (n : Int)
  | Bool (b : Bool)
  | Nil
  | Callable (c : LoxCallableM)
  | Instance (ref : Nat)
  | Class (c : LoxClassM)
deriving Repr

/-- `PartialEq for Value`: structural on primitives; callables compare equal
only when both are natives of the same name (`PartialEq for LoxCallable`);
classes compare by name (`PartialEq for LoxClass`).  Instance equality in the
source is `Rc::ptr_eq` on the class pointers, which the arena model does not
represent; no claim in this development compares instance values, and the
case is fixed to `false` here. -/
def valueEq : Value → Value → Bool
  | .String s, .String s2 => s == s2
  | .Number n, .Number n2 => n == n2
  | .Bool b, .Bool b2 => b == b2
  | .Nil, .Nil => true
  | .Callable (.NativeFunction n _), .Callable (.NativeFunction n2 _) => n == n2
  | .Callable _, .Callable _ => false
  | .Instance _, .Instance _ => false
  | .Class c, .Class c2 => c.name == c2.name
  | _, _ => false

/-- The error channel of `src/error.rs` (`enum Error`), extended by the two
model-level outcomes described in the header: `Crash` for Rust panics and
`OutOfFuel` for exhaustion of the evaluator's fuel (an artifact of the
embedding, not a program behaviour).  `Unmodelled` marks paths whose source
either does not compile against the rest of the crate (the interpreter
implements no visitor for class declarations or property access) or depends
on the host (the `clock` native). -/
inductive LoxError where
  | RuntimeError (token : Token) (message : String)
  | ReturnError (value : Option Value)
  | Crash (message : String)
  | Unmodelled (message : String)
  | OutOfFuel
deriving Repr

/-- The `RuntimeError` raised for a missing binding, from
`src/environment.rs` (`Token::new(IDENTIFIER, name, 0, None)`; the quoting
marks of the `format!` message are dropped). -/
def undefinedVariable (name : String) : LoxError :=
  .RuntimeError ⟨.IDENTIFIER, name, 0, none⟩ ("Undefined variable " ++ name ++ ".")

/-- The local `values` map of one environment frame
(`RefCell<HashMap<String, Value>>`), as an association list. -/
abbrev VarMap := List (String × Value)

/-- `HashMap::contains_key`. -/
def VarMap.containsKey (m : VarMap) (k : String) : Bool :=
  m.any (fun p => p.1 == k)

/-- `HashMap::insert`: overwrite an existing binding of the key, otherwise
add one. -/
def VarMap.insertVal : VarMap → String → Value → VarMap
  | [], k, v => [(k, v)]
  | (k2, v2) :: rest, k, v =>
      if k2 == k then (k, v) :: rest else (k2, v2) :: VarMap.insertVal rest k v

/-- `HashMap::get`. -/
def VarMap.getVal : VarMap → String → Option Value
  | [], _ => none
  | (k2, v2) :: rest, k => if k2 == k then some v2 else VarMap.getVal rest k

/-!
## The environment chain, `src/environment.rs`

An `Environment` together with its `enclosing` links is modelled as the
list of its frames' `values` maps, innermost first (`chain.head` is the
environment itself, `chain.tail` its enclosing chain; the chain is finite
and acyclic by the source's construction discipline).  Mutation through the
`RefCell`s becomes returning the updated chain.
-/

namespace EnvChain

/-- `Environment::put`: overwrite the binding in the innermost frame that
has one, walking outward; error (and no insertion anywhere) when no frame
binds the name. -/
def put : List VarMap → String → Value → Except LoxError (List VarMap)
  | [], name, _ => .error (undefinedVariable name)
  | m :: rest, name, v =>
      if VarMap.containsKey m name then .ok (VarMap.insertVal m name v :: rest)
      else (put rest name v).map (fun r => m :: r)

/-- `Environment::get`: the innermost binding, walking outward. -/
def get : List VarMap → String → Except LoxError Value
  | [], name => .error (undefinedVariable name)
  | m :: rest, name =>
      match VarMap.getVal m name with
      | some v => .ok v
      | none => get rest name

/-- `Environment::put` starting from the frame `distance` enclosing links
out.  This is where `Environment::ancestor`'s walk ends for a positive
distance: the `for` loop silently stops at the root (`if let Some` fails)
once the chain is exhausted, so the last frame absorbs any leftover steps. -/
def putFrom : List VarMap → Nat → String → Value → Except LoxError (List VarMap)
  | chain, 0, name, v => put chain name v
  | [], _ + 1, name, _ => .error (undefinedVariable name)
  | [m], _ + 1, name, v => put [m] name v
  | m :: m2 :: rest, d + 1, name, v =>
      (putFrom (m2 :: rest) d name v).map (fun r => m :: r)

/-- `Environment::get` starting from the frame `distance` enclosing links
out, with the same stop-at-root walk. -/
def getFrom : List VarMap → Nat → String → Except LoxError Value
  | chain, 0, name => get chain name
  | [], _ + 1, name => .error (undefinedVariable name)
  | [m], _ + 1, name => get [m] name
  | _ :: m2 :: rest, d + 1, name => getFrom (m2 :: rest) d name

/-- `Environment::assign_at`: `self.ancestor(distance).put(name, value)`.
`Environment::ancestor` begins with `Rc::new(self.clone())` — a fresh copy
of the starting frame whose `enclosing` pointers are shared with the
original — and then walks `distance` links.  When the walk ends on that
fresh copy (distance `0`, or a chain with no enclosing at all), a `put`
that hits the copy's local map mutates only the copy, which is dropped on
return: the real chain is unchanged, and the write is lost.  A `put` that
misses the copy's local map recurses into the *shared* enclosing frames
and takes effect.  When the walk leaves the copy (distance `≥ 1` with a
nonempty enclosing chain) every frame reached is shared and the write
takes effect. -/
def assign_at : List VarMap → Nat → String → Value → Except LoxError (List VarMap)
  | [], _, name, _ => .error (undefinedVariable name)
  | m :: rest, 0, name, v =>
      if VarMap.containsKey m name then .ok (m :: rest)
      else (put rest name v).map (fun r => m :: r)
  | [m], _ + 1, name, _ =>
      if VarMap.containsKey m name then .ok [m] else .error (undefinedVariable name)
  | m :: m2 :: rest, d + 1, name, v =>
      (putFrom (m2 :: rest) d name v).map (fun r => m :: r)

/-- `Environment::get_at`: `self.ancestor(distance).get(name)`.  Reading
the fresh copy is indistinguishable from reading the original frame, so
only the walk matters here. -/
def get_at : List VarMap → Nat → String → Except LoxError Value
  | [], _, name => .error (undefinedVariable name)
  | m :: rest, 0, name => get (m :: rest) name
  | [m], _ + 1, name => get [m] name
  | _ :: m2 :: rest, d + 1, name => getFrom (m2 :: rest) d name

end EnvChain

/-- `Interpreter::ancestor` from `src/interpreter.rs`, the walk used by the
resolved-distance fast path (`look_up_variable` / `visit_assignment_expr`):
it follows `enclosing` links `distance` times, calling `.unwrap()` on the
`Option`.  `none` models the panic raised when a link is missing. -/
def Interpreter.ancestorChain : List VarMap → Nat → Option (List VarMap)
  | chain, 0 => some chain
  | [], _ + 1 => none
  | [_], _ + 1 => none
  | _ :: m2 :: rest, d + 1 => Interpreter.ancestorChain (m2 :: rest) d

namespace EnvChain

/-- Helper: `put` on a chain none of whose frames binds the name is the
undefined-variable error (and, the model being pure, no frame is touched). -/
theorem put_absent (name : String) (v : Value) :
    ∀ chain : List VarMap, (∀ m ∈ chain, VarMap.containsKey m name = false) →
      put chain name v = .error (undefinedVariable name) := by
  intro chain
  induction chain with
  | nil => intro _; rfl
  | cons m rest ih =>
      intro h
      have hm : VarMap.containsKey m name = false := h m (by simp)
      have hrest := ih (fun m2 hm2 => h m2 (by simp [hm2]))
      simp [put, hm, hrest, Except.map]

/-- Helper: `put` overwrites the innermost frame binding the name and leaves
every other frame of the chain unchanged. -/
theorem put_hit (name : String) (v : Value) :
    ∀ (pre : List VarMap) (m : VarMap) (post : List VarMap),
      (∀ m2 ∈ pre, VarMap.containsKey m2 name = false) →
      VarMap.containsKey m name = true →
      put (pre ++ m :: post) name v = .ok (pre ++ VarMap.insertVal m name v :: post) := by
  intro pre
  induction pre with
  | nil => intro m post _ hm; simp [put, hm]
  | cons p ps ih =>
      intro m post hpre hm
      have hp : VarMap.containsKey p name = false := hpre p (by simp)
      have hrec := ih m post (fun m2 h2 => hpre m2 (by simp [h2])) hm
      simp [put, hp, hrec, Except.map]

end EnvChain

/-- C8: for every environment chain and name, `put(name, value)` overwrites
the innermost existing binding of the name when one exists (decomposing the
chain as `pre ++ m :: post` with the name absent from every frame of `pre`
and present in `m`, the result is the same chain with only `m` updated),
and when no frame of the chain binds the name it returns the
`UndefinedVariable` error, creating no binding in any frame. -/
theorem C8_put_innermost_overwrite_or_error (chain : List VarMap) (name : String) (v : Value) :
    ((∀ m ∈ chain, VarMap.containsKey m name = false) →
      EnvChain.put chain name v = .error (undefinedVariable name))
    ∧ (∀ pre m post, chain = pre ++ m :: post →
        (∀ m2 ∈ pre, VarMap.containsKey m2 name = false) →
        VarMap.containsKey m name = true →
        EnvChain.put chain name v = .ok (pre ++ VarMap.insertVal m name v :: post)) := by
  constructor
  · exact EnvChain.put_absent name v chain
  · intro pre m post hdec hpre hm
    subst hdec
    exact EnvChain.put_hit name v pre m post hpre hm

/-- C8 witness: the theorem applied to concrete chains — an assignment to
`x` bound in the second (enclosing) frame updates exactly that frame, and an
assignment to an unbound `x` is the undefined-variable error. -/
theorem C8_put_witness :
    EnvChain.put [[("y", Value.Nil)], [("x", Value.Number 1)]] "x" (Value.Number 2)
      = .ok [[("y", Value.Nil)], [("x", Value.Number 2)]]
    ∧ EnvChain.put [[("y", Value.Nil)]] "x" (Value.Number 2)
      = .error (undefinedVariable "x") := by
  constructor
  · exact (C8_put_innermost_overwrite_or_error
        [[("y", Value.Nil)], [("x", Value.Number 1)]] "x" (Value.Number 2)).2
      [[("y", Value.Nil)]] [("x", Value.Number 1)] [] rfl
      (by intro m2 hm2; simp only [List.mem_singleton] at hm2; subst hm2; rfl)
      (by rfl)
  · exact (C8_put_innermost_overwrite_or_error
        [[("y", Value.Nil)]] "x" (Value.Number 2)).1
      (by intro m2 hm2; simp only [List.mem_singleton] at hm2; subst hm2; rfl)

/-- C5: evaluation of the code at the failing input.  On the one-frame chain
`{x ↦ 1}`, `assign_at(0, x, 2)` returns `Ok` but leaves the chain unchanged
— `Environment::ancestor(0)` hands `put` a fresh clone of the frame
(`Rc::new(self.clone())`), the write lands in the clone's map, and the clone
is dropped — so a subsequent `get(x)` on the starting frame still yields `1`,
not the assigned `2` the claim requires. -/
theorem C5_assign_at_zero_lost_write :
    EnvChain.assign_at [[("x", Value.Number 1)]] 0 "x" (Value.Number 2)
      = .ok [[("x", Value.Number 1)]]
    ∧ EnvChain.get [[("x", Value.Number 1)]] "x" = .ok (Value.Number 1)
    ∧ EnvChain.get_at [[("x", Value.Number 1)]] 0 "x" = .ok (Value.Number 1) :=
  ⟨rfl, rfl, rfl⟩

/-- C9 counterexample: the resolved-distance fast path's ancestor walk,
`Interpreter::ancestor`, `unwrap()`s the enclosing link, so on a chain of
length 1 a distance of 1 panics (modelled by `none`) instead of signalling a
graceful internal error as the claim states. -/
theorem C9_interpreter_ancestor_panics :
    Interpreter.ancestorChain [[("x", Value.Nil)]] 1 = none := rfl

/-- C9 amended: `Interpreter::ancestor` walks exactly `d` links and returns
the environment `d` links out whenever `d` is smaller than the chain length,
but whenever `d` meets or exceeds the chain length it `unwrap()`s a missing
enclosing link and crashes (modelled by `none`) — a malformed distance is a
panic, not a gracefully signalled internal error. -/
theorem C9_interpreter_ancestor_characterization (chain : List VarMap) (d : Nat)
    (h : chain ≠ []) :
    (d + 1 ≤ chain.length → Interpreter.ancestorChain chain d = some (chain.drop d))
    ∧ (chain.length ≤ d → Interpreter.ancestorChain chain d = none) := by
  induction d generalizing chain with
  | zero =>
      refine ⟨fun _ => by simp [Interpreter.ancestorChain], fun hlen => absurd ?_ h⟩
      exact List.eq_nil_of_length_eq_zero (Nat.le_zero.mp hlen)
  | succ d ih =>
      match chain with
      | [] => exact absurd rfl h
      | [m] =>
          refine ⟨fun hlen => ?_, fun _ => rfl⟩
          simp at hlen
      | m :: m2 :: rest =>
          have hne : (m2 :: rest) ≠ [] := by simp
          constructor
          · intro hlen
            have : d + 1 ≤ (m2 :: rest).length := by
              simpa [Nat.succ_le_succ_iff] using hlen
            simpa [Interpreter.ancestorChain, List.drop] using (ih (m2 :: rest) hne).1 this
          · intro hlen
            have : (m2 :: rest).length ≤ d := by
              simpa [Nat.succ_le_succ_iff] using hlen
            simpa [Interpreter.ancestorChain] using (ih (m2 :: rest) hne).2 this

/-- C9 amended witness: the characterization applied to concrete chains —
distance 1 on a two-frame chain reaches the enclosing frame, distance 2 on a
one-frame chain crashes. -/
theorem C9_interpreter_ancestor_witness :
    Interpreter.ancestorChain [[("a", Value.Nil)], [("b", Value.Nil)]] 1
      = some [[("b", Value.Nil)]]
    ∧ Interpreter.ancestorChain [[("a", Value.Nil)]] 2 = none := by
  constructor
  · exact (C9_interpreter_ancestor_characterization
        [[("a", Value.Nil)], [("b", Value.Nil)]] 1 (by simp)).1 (by simp)
  · exact (C9_interpreter_ancestor_characterization
        [[("a", Value.Nil)]] 2 (by simp)).2 (by simp)

/-!
## The resolver, `src/resolver.rs`

The resolver's `panic!` calls abort resolution; they are modelled as
`Except.error` carrying the panic message.  The scope stack is kept head
= innermost (the Rust `Vec` pushes and pops at its end and scans with
`.iter().rev()`).  `Interpreter::resolve` inserts into the interpreter's
`locals` table, a `HashMap` keyed by the structural equality of `Expr`.
-/

/-- One lexical scope of the resolver: `HashMap<String, bool>`. -/
abbrev Scope := List (String × Bool)

/-- `HashMap::contains_key` on a scope. -/
def Scope.containsKey (s : Scope) (k : String) : Bool :=
  s.any (fun p => p.1 == k)

/-- `HashMap::insert` on a scope. -/
def Scope.insertB : Scope → String → Bool → Scope
  | [], k, b => [(k, b)]
  | (k2, b2) :: rest, k, b =>
      if k2 == k then (k, b) :: rest else (k2, b2) :: Scope.insertB rest k b

/-- `HashMap::get` on a scope. -/
def Scope.getB : Scope → String → Option Bool
  | [], _ => none
  | (k2, b2) :: rest, k => if k2 == k then some b2 else Scope.getB rest k

/-- The interpreter's resolved-distance table `locals: HashMap<Expr, usize>`,
keyed by the structural equality `exprEq`. -/
abbrev LocalsTable := List (Expr × Nat)

/-- `HashMap::insert` on the distance table (structurally equal expressions
share one entry, as with the source's content-hashed keys). -/
def localsInsert : LocalsTable → Expr → Nat → LocalsTable
  | [], e, d => [(e, d)]
  | (e2, d2) :: rest, e, d =>
      if exprEq e2 e then (e, d) :: rest else (e2, d2) :: localsInsert rest e d

/-- `HashMap::get` on the distance table. -/
def localsGet : LocalsTable → Expr → Option Nat
  | [], _ => none
  | (e2, d2) :: rest, e => if exprEq e2 e then some d2 else localsGet rest e

namespace Resolve

/-- `enum FunctionType` from `src/resolver.rs`. -/
inductive FunctionType where
  | None | Function | Method | Initializer
deriving DecidableEq, Repr

/-- `enum ClassType` from `src/resolver.rs`. -/
inductive ClassType where
  | None | Class
deriving DecidableEq, Repr

/-- The resolver's state (`struct Resolver`), together with the interpreter
`locals` table it mutates through `Interpreter::resolve`. -/
structure RState where
  scopes : List Scope
  current_function : FunctionType
  current_class : ClassType
  locals : LocalsTable
deriving Repr

/-- `Resolver::new`: one initial scope, no enclosing function or class, and
the fresh interpreter's empty `locals` table. -/
def RState.initial : RState :=
  { scopes := [[]], current_function := .None, current_class := .None, locals := [] }

/-- `Resolver::begin_scope`. -/
def beginScope (st : RState) : RState :=
  { st with scopes := [] :: st.scopes }

/-- `Resolver::end_scope` (`Vec::pop`). -/
def endScope (st : RState) : RState :=
  { st with scopes := st.scopes.tail }

/-- `Resolver::declare`: mark the name present-but-undefined in the
innermost scope; redeclaration in the same scope panics. -/
def declare (st : RState) (name : Token) : Except String RState :=
  match st.scopes with
  | [] => .ok st
  | s :: rest =>
      if Scope.containsKey s name.lexeme then
        .error "Variable with this name already declared in this scope."
      else .ok { st with scopes := Scope.insertB s name.lexeme false :: rest }

/-- `Resolver::define`: mark the name ready in the innermost scope. -/
def define (st : RState) (name : Token) : RState :=
  match st.scopes with
  | [] => st
  | s :: rest => { st with scopes := Scope.insertB s name.lexeme true :: rest }

/-- The innermost-to-outermost scan of `Resolver::resolve_local`
(`self.scopes.iter().rev().enumerate()`): depth of the innermost scope
containing the name. -/
def scopeDistance : List Scope → String → Option Nat
  | [], _ => none
  | s :: rest, nm =>
      if Scope.containsKey s nm then some 0
      else (scopeDistance rest nm).map (fun i => i + 1)

/-- `Resolver::resolve_local`: record the distance for this exact node in
the interpreter's table; record nothing when no scope binds the name. -/
def resolveLocal (st : RState) (e : Expr) (name : Token) : RState :=
  match scopeDistance st.scopes name.lexeme with
  | some i => { st with locals := localsInsert st.locals e i }
  | none => st

/-- Outcome of a fuel-indexed model computation whose fuel ran out.  The
sources' recursion is bounded by the AST (the resolver) or may genuinely
diverge (the interpreter); fuel makes the embedding total, and every entry
point is invoked with fuel that the concrete programs of this development
never exhaust. -/
def fuelMsg : String := "model fuel exhausted"

mutual

/-- `impl StmtVisitor<()> for Resolver`, one case per visit method.  The
first argument is fuel (see `fuelMsg`); all other behaviour is the
source's. -/
def resolveStmt : Nat → RState → Stmt → Except String RState
  | 0, _, _ => .error fuelMsg
  | f + 1, st, .Print e => resolveExpr f st e
  | f + 1, st, .Expression e => resolveExpr f st e
  | f + 1, st, .IfStatement c t e => do
      let st1 ← resolveExpr f st c
      let st2 ← resolveStmt f st1 t
      match e with
      | some els => resolveStmt f st2 els
      | none => return st2
  | f + 1, st, .VarDeclaration name init => do
      let st1 ← declare st name
      let st2 ← match init with
        | some e => resolveExpr f st1 e
        | none => pure st1
      return define st2 name
  | f + 1, st, .Block stmts => do
      let st1 ← resolveStmts f (beginScope st) stmts
      return endScope st1
  | f + 1, st, .WhileStmt c b => do
      let st1 ← resolveExpr f st c
      resolveStmt f st1 b
  | f + 1, st, .ForStmt init c _inc b => do
      let st1 := beginScope st
      let st2 ← match init with
        | some i => resolveStmt f st1 i
        | none => pure st1
      let st3 ← match c with
        | some ce => resolveExpr f st2 ce
        | none => pure st2
      let st4 ← resolveStmt f st3 b
      return endScope st4
  | _ + 1, st, .BreakStmt => .ok st
  | _ + 1, st, .ContinueStmt => .ok st
  | f + 1, st, .FunctionStmt name params body => do
      let st1 ← declare st name
      let st2 := define st1 name
      resolveFunction f st2 params body .Function
  | f + 1, st, .ReturnStmt _kw val =>
      if st.current_function == .None then
        .error "Cannot return from top-level code."
      else
        match val with
        | some v =>
            if st.current_function == .Initializer then
              .error "Cannot return a value from an initializer."
            else resolveExpr f st v
        | none => .ok st
  | f + 1, st, .ClassDecl name methods => do
      let st1 := { st with current_class := .Class }
      let st2 ← declare st1 name
      let st3 := beginScope st2
      let st4 := { st3 with
        scopes := match st3.scopes with
          | [] => []
          | s :: rest => Scope.insertB s "this" true :: rest }
      let st5 ← resolveMethods f st4 methods
      let st6 := endScope st5
      let st7 := define st6 name
      return { st7 with current_class := st.current_class }

/-- `Resolver::resolve_statements`. -/
def resolveStmts : Nat → RState → List Stmt → Except String RState
  | 0, _, _ => .error fuelMsg
  | _ + 1, st, [] => .ok st
  | f + 1, st, s :: rest => do
      let st1 ← resolveStmt f st s
      resolveStmts f st1 rest

/-- `Resolver::resolve_function`: every method of a class body is resolved
with the `FunctionType` its caller passes; `visit_class_decl` always passes
`Method` — the `Initializer` variant is never constructed in the source. -/
def resolveFunction : Nat → RState → List Token → List Stmt → FunctionType →
    Except String RState
  | 0, _, _, _, _ => .error fuelMsg
  | f + 1, st, params, body, type_ => do
      let enclosing := st.current_function
      let st1 := beginScope { st with current_function := type_ }
      let st2 ← declareParams f st1 params
      let st3 ← resolveStmts f st2 body
      return { endScope st3 with current_function := enclosing }

/-- The parameter loop of `Resolver::resolve_function` (declare then define
each parameter in order). -/
def declareParams : Nat → RState → List Token → Except String RState
  | 0, _, _ => .error fuelMsg
  | _ + 1, st, [] => .ok st
  | f + 1, st, p :: rest => do
      let st1 ← declare st p
      declareParams f (define st1 p) rest

/-- The method loop of `Resolver::visit_class_decl`: each method resolved
with `FunctionType::Method`. -/
def resolveMethods : Nat → RState → List (Token × List Token × List Stmt) →
    Except String RState
  | 0, _, _ => .error fuelMsg
  | _ + 1, st, [] => .ok st
  | f + 1, st, (_, params, body) :: rest => do
      let st1 ← resolveFunction f st params body .Method
      resolveMethods f st1 rest

/-- `impl ExprVisitor<()> for Resolver`, one case per visit method. -/
def resolveExpr : Nat → RState → Expr → Except String RState
  | 0, _, _ => .error fuelMsg
  | f + 1, st, .Binary l _ r => do
      let st1 ← resolveExpr f st l
      resolveExpr f st1 r
  | f + 1, st, .Grouping e => resolveExpr f st e
  | _ + 1, st, .Literal _ => .ok st
  | f + 1, st, .Unary _ r => resolveExpr f st r
  | _ + 1, st, .Variable name =>
      match st.scopes with
      | s :: _ =>
          if Scope.getB s name.lexeme == some false then
            .error "Cannot read local variable in its own initializer."
          else .ok (resolveLocal st (.Variable name) name)
      | [] => .ok (resolveLocal st (.Variable name) name)
  | f + 1, st, .Assignment name value => do
      let st1 ← resolveExpr f st value
      return resolveLocal st1 (.Assignment name value) name
  | f + 1, st, .Get o _ => resolveExpr f st o
  | f + 1, st, .Set o _ v => do
      let st1 ← resolveExpr f st v
      resolveExpr f st1 o
  | _ + 1, st, .This kw =>
      if st.current_class == .None then
        .error "Cannot use this outside of a class."
      else .ok (resolveLocal st (.This kw) kw)
  | f + 1, st, .Call c _ args => do
      let st1 ← resolveExpr f st c
      resolveArgs f st1 args
  | f + 1, st, .OR l _ r => do
      let st1 ← resolveExpr f st l
      resolveExpr f st1 r
  | f + 1, st, .AND l _ r => do
      let st1 ← resolveExpr f st l
      resolveExpr f st1 r

/-- The argument loop of `Resolver::visit_call_expr`. -/
def resolveArgs : Nat → RState → List Expr → Except String RState
  | 0, _, _ => .error fuelMsg
  | _ + 1, st, [] => .ok st
  | f + 1, st, a :: rest => do
      let st1 ← resolveExpr f st a
      resolveArgs f st1 rest

end

/-- The whole static pass: a fresh resolver (holding the fresh interpreter's
empty table) over the program's statements.  The source's recursion is
structural over the AST; the explicit fuel makes the model total, and a
result of `.error fuelMsg` is a model artifact, never a resolver panic. -/
def resolveProgram (fuel : Nat) (stmts : List Stmt) : Except String RState :=
  resolveStmts fuel RState.initial stmts

end Resolve

/-!
## The interpreter, `src/interpreter.rs` and `src/callable.rs`

Shared `Rc<Environment>` nodes are modelled as indices into an arena
(`IState.heap`); `RefCell` mutation is an update of the indexed frame, so a
write through any holder of the `Rc` is visible to all holders, as in the
source.  The interpreter's "current environment" cursor is an explicit
argument, which models `execute_block`'s save/restore of `self.environment`
on every exit path.  `visit_call_expr` hands the callee a clone of the
interpreter; the clone shares the `Rc` environment graph (the arena) while
its cursor and (never-mutated) `locals` table are copies — which is exactly
argument passing here.  Every evaluation returns its final state next to
its `Result`, because a Rust `Err` leaves `&mut self`'s prior mutations in
place.  The statements and expressions for which `src/interpreter.rs`
implements no visitor (class declarations, property get/set, `this`) take
the `Unmodelled` outcome; no claim exercises them, and the crate as given
does not compile them.
-/

namespace Interp

/-- One `Environment` node: its `values` map and its `enclosing` link
(an arena index). -/
structure EnvFrame where
  values : VarMap
  enclosing : Option Nat
deriving Repr

/-- The interpreter-global state: the environment arena and the `println!`
output sink. -/
structure IState where
  heap : List EnvFrame
  output : List String
deriving Repr

/-- Allocate a fresh `Rc<Environment>`: append a frame, return its index. -/
def IState.alloc (st : IState) (fr : EnvFrame) : IState × Nat :=
  ({ st with heap := st.heap ++ [fr] }, st.heap.length)

/-- `Environment::define` on the frame at `env`: always inserts into the
local map. -/
def IState.defineVar (st : IState) (env : Nat) (name : String) (v : Value) : IState :=
  match st.heap.get? env with
  | some fr =>
      { st with heap := st.heap.set env { fr with values := VarMap.insertVal fr.values name v } }
  | none => st

/-- `Environment::get` through the arena: innermost binding outward.  The
fuel bounds the (acyclic) chain; an out-of-range index is a model-level
crash and never occurs for arena-allocated ids. -/
def heapGet : Nat → IState → Nat → String → Except LoxError Value
  | 0, _, _, _ => .error .OutOfFuel
  | f + 1, st, env, name =>
      match st.heap.get? env with
      | none => .error (.Crash "environment id out of range")
      | some fr =>
          match VarMap.getVal fr.values name with
          | some v => .ok v
          | none =>
              match fr.enclosing with
              | some p => heapGet f st p name
              | none => .error (undefinedVariable name)

/-- `Environment::put` through the arena: overwrite the innermost existing
binding, else recurse outward, else the undefined-variable error (no
insertion). -/
def heapPut : Nat → IState → Nat → String → Value → Except LoxError IState
  | 0, _, _, _, _ => .error .OutOfFuel
  | f + 1, st, env, name, v =>
      match st.heap.get? env with
      | none => .error (.Crash "environment id out of range")
      | some fr =>
          if VarMap.containsKey fr.values name then
            .ok { st with heap := st.heap.set env { fr with values := VarMap.insertVal fr.values name v } }
          else
            match fr.enclosing with
            | some p => heapPut f st p name v
            | none => .error (undefinedVariable name)

/-- `Interpreter::ancestor` through the arena: follow `enclosing` links
`distance` times, `unwrap()`ing each; a missing link is the panic
(`Crash`). -/
def heapAncestor : Nat → IState → Nat → Nat → Except LoxError Nat
  | 0, _, _, _ => .error .OutOfFuel
  | _ + 1, _, env, 0 => .ok env
  | f + 1, st, env, d + 1 =>
      match st.heap.get? env with
      | none => .error (.Crash "environment id out of range")
      | some fr =>
          match fr.enclosing with
          | some p => heapAncestor f st p d
          | none => .error (.Crash "called unwrap on a None value")

/-- `Interpreter::is_truthy`: only `nil` and `false` are falsey. -/
def is_truthy : Value → Bool
  | .Nil => false
  | .Bool b => b
  | _ => true

/-- `Interpreter::literal_to_value`. -/
def literalToValue : LiteralType → Value
  | .String s => .String s
  | .Number n => .Number n
  | .Bool b => .Bool b
  | .Nil => .Nil

/-- `Interpreter::stringify`: `nil` prints `nil`; numbers print as Rust's
`f64` `Display` (which for the integer values used here coincides with
`Int`'s `toString`, making the source's trailing-`.0` strip a no-op); other
values print via their `Display` implementation.  The instance arm of the
source reads the class name through its `Rc`, which the value model does
not carry; no claim prints an instance. -/
def stringify : Value → String
  | .Nil => "nil"
  | .Number n => toString n
  | .String s => s
  | .Bool b => if b then "true" else "false"
  | .Callable c =>
      match c with
      | .NativeFunction n _ => "<fn " ++ n ++ ">"
      | .LoxFunction fn => "<fn " ++ fn.name ++ ">"
  | .Instance _ => "<instance>"
  | .Class c => "<class " ++ c.name ++ ">"

/-- The arithmetic/comparison/equality dispatch of
`Interpreter::visit_binary_expr`, after both operands are evaluated. -/
def evalBinaryOp (op : Token) (l r : Value) : Except LoxError Value :=
  match op.type_ with
  | .MINUS =>
      match l, r with
      | .Number a, .Number b => .ok (.Number (a - b))
      | _, _ => .error (.RuntimeError op "Operands must be numbers.")
  | .SLASH =>
      match l, r with
      | .Number a, .Number b =>
          if b == 0 then .error (.RuntimeError op "Division by zero.")
          else .ok (.Number (a / b))
      | _, _ => .error (.RuntimeError op "Operands must be numbers.")
  | .STAR =>
      match l, r with
      | .Number a, .Number b => .ok (.Number (a * b))
      | _, _ => .error (.RuntimeError op "Operands must be numbers.")
  | .PLUS =>
      match l, r with
      | .Number a, .Number b => .ok (.Number (a + b))
      | .String a, .String b => .ok (.String (a ++ b))
      | .String a, .Number b => .ok (.String (a ++ toString b))
      | .Number a, .String b => .ok (.String (toString a ++ b))
      | _, _ => .error (.RuntimeError op "Operands must be two numbers or two strings.")
  | .GREATER =>
      match l, r with
      | .Number a, .Number b => .ok (.Bool (decide (a > b)))
      | _, _ => .error (.RuntimeError op "Operands must be numbers.")
  | .GREATER_EQUAL =>
      match l, r with
      | .Number a, .Number b => .ok (.Bool (decide (a ≥ b)))
      | _, _ => .error (.RuntimeError op "Operands must be numbers.")
  | .LESS =>
      match l, r with
      | .Number a, .Number b => .ok (.Bool (decide (a < b)))
      | _, _ => .error (.RuntimeError op "Operands must be numbers.")
  | .LESS_EQUAL =>
      match l, r with
      | .Number a, .Number b => .ok (.Bool (decide (a ≤ b)))
      | _, _ => .error (.RuntimeError op "Operands must be numbers.")
  | .BANG_EQUAL => .ok (.Bool (!valueEq l r))
  | .EQUAL_EQUAL => .ok (.Bool (valueEq l r))
  | _ => .error (.RuntimeError op "Unknown binary operator.")

/-- The parameter-binding loop of `LoxFunction::call`:
`self.params.iter().zip(arguments)` defined into a fresh environment in
order. -/
def bindParams (params : List String) (args : List Value) : VarMap :=
  (params.zip args).foldl (fun m pa => VarMap.insertVal m pa.1 pa.2) []

/-- The `break`-signal value raised by `visit_break_stmt`. -/
def breakSignal : LoxError :=
  .RuntimeError ⟨.BREAK, "break", 0, none⟩ "Break statement encountered."

/-- The `continue`-signal value raised by `visit_continue_stmt`. -/
def continueSignal : LoxError :=
  .RuntimeError ⟨.CONTINUE, "continue", 0, none⟩ "Continue statement encountered."

mutual

/-- `impl ExprVisitor<Result<Value>> for Interpreter`, one case per visit
method; first argument is fuel, `locals` is the read-only resolved-distance
table, `env` the current-environment cursor. -/
def evalExpr : Nat → LocalsTable → IState → Nat → Expr → IState × Except LoxError Value
  | 0, _, st, _, _ => (st, .error .OutOfFuel)
  | _ + 1, _, st, _, .Literal v => (st, .ok (literalToValue v))
  | f + 1, locals, st, env, .Grouping e => evalExpr f locals st env e
  | f + 1, locals, st, env, .Unary op r =>
      match evalExpr f locals st env r with
      | (st1, .error e) => (st1, .error e)
      | (st1, .ok right) =>
          match op.type_ with
          | .MINUS =>
              match right with
              | .Number n => (st1, .ok (.Number (-n)))
              | _ => (st1, .error (.RuntimeError op "Operand must be a number."))
          | .BANG => (st1, .ok (.Bool (!is_truthy right)))
          | _ => (st1, .error (.RuntimeError op "Unknown unary operator."))
  | f + 1, locals, st, env, .Binary l op r =>
      match evalExpr f locals st env l with
      | (st1, .error e) => (st1, .error e)
      | (st1, .ok lv) =>
          match evalExpr f locals st1 env r with
          | (st2, .error e) => (st2, .error e)
          | (st2, .ok rv) => (st2, evalBinaryOp op lv rv)
  | f + 1, locals, st, env, .Variable name =>
      match localsGet locals (.Variable name) with
      | some d =>
          match heapAncestor f st env d with
          | .error e => (st, .error e)
          | .ok anc => (st, heapGet f st anc name.lexeme)
      | none => (st, heapGet f st env name.lexeme)
  | f + 1, locals, st, env, .Assignment name value =>
      match evalExpr f locals st env value with
      | (st1, .error e) => (st1, .error e)
      | (st1, .ok v) =>
          match localsGet locals (.Assignment name value) with
          | some d =>
              match heapAncestor f st1 env d with
              | .error e => (st1, .error e)
              | .ok anc =>
                  match heapPut f st1 anc name.lexeme v with
                  | .error e => (st1, .error e)
                  | .ok st2 => (st2, .ok v)
          | none =>
              match heapPut f st1 env name.lexeme v with
              | .error e => (st1, .error e)
              | .ok st2 => (st2, .ok v)
  | f + 1, locals, st, env, .OR l _ r =>
      match evalExpr f locals st env l with
      | (st1, .error e) => (st1, .error e)
      | (st1, .ok lv) =>
          if is_truthy lv then (st1, .ok lv) else evalExpr f locals st1 env r
  | f + 1, locals, st, env, .AND l _ r =>
      match evalExpr f locals st env l with
      | (st1, .error e) => (st1, .error e)
      | (st1, .ok lv) =>
          if !is_truthy lv then (st1, .ok lv) else evalExpr f locals st1 env r
  | f + 1, locals, st, env, .Call callee paren args =>
      match evalExpr f locals st env callee with
      | (st1, .error e) => (st1, .error e)
      | (st1, .ok calleeVal) =>
          match evalArgs f locals st1 env args with
          | (st2, .error e) => (st2, .error e)
          | (st2, .ok argVals) =>
              match calleeVal with
              | .Callable c =>
                  let ar := match c with
                    | .NativeFunction _ n => n
                    | .LoxFunction fn => fn.params.length
                  if argVals.length ≠ ar then
                    (st2, .error (.RuntimeError paren
                      ("Expected " ++ toString ar ++ " arguments but got "
                        ++ toString argVals.length ++ ".")))
                  else
                    match c with
                    | .NativeFunction _ _ =>
                        (st2, .error (.Unmodelled "native call: clock reads the host clock"))
                    | .LoxFunction fn => callFunction f locals st2 fn argVals
              | _ => (st2, .error (.RuntimeError paren "Can only call functions and classes."))
  | _ + 1, _, st, _, .Get _ _ =>
      (st, .error (.Unmodelled "no visit_get_expr in the interpreter"))
  | _ + 1, _, st, _, .Set _ _ _ =>
      (st, .error (.Unmodelled "no visit_set_expr in the interpreter"))
  | _ + 1, _, st, _, .This _ =>
      (st, .error (.Unmodelled "no visit_this_expr in the interpreter"))
termination_by structural fu locals st env e => fu

/-- The left-to-right argument loop of `visit_call_expr`. -/
def evalArgs : Nat → LocalsTable → IState → Nat → List Expr →
    IState × Except LoxError (List Value)
  | 0, _, st, _, _ => (st, .error .OutOfFuel)
  | _ + 1, _, st, _, [] => (st, .ok [])
  | f + 1, locals, st, env, a :: rest =>
      match evalExpr f locals st env a with
      | (st1, .error e) => (st1, .error e)
      | (st1, .ok v) =>
          match evalArgs f locals st1 env rest with
          | (st2, .error e) => (st2, .error e)
          | (st2, .ok vs) => (st2, .ok (v :: vs))
termination_by structural fu locals st env args => fu

/-- `impl StmtVisitor<Result<Value>> for Interpreter`, one case per visit
method.  Note `visit_expression_stmt` evaluates its expression and discards
the `Result` ( the source has no `?` there), returning `Ok(Nil)`
unconditionally. -/
def execStmt : Nat → LocalsTable → IState → Nat → Stmt → IState × Except LoxError Value
  | 0, _, st, _, _ => (st, .error .OutOfFuel)
  | f + 1, locals, st, env, .Expression e =>
      match evalExpr f locals st env e with
      | (st1, _) => (st1, .ok .Nil)
  | f + 1, locals, st, env, .Print e =>
      match evalExpr f locals st env e with
      | (st1, .error err) => (st1, .error err)
      | (st1, .ok v) => ({ st1 with output := st1.output ++ [stringify v] }, .ok .Nil)
  | f + 1, locals, st, env, .VarDeclaration name init =>
      match init with
      | some e =>
          match evalExpr f locals st env e with
          | (st1, .error err) => (st1, .error err)
          | (st1, .ok v) => (st1.defineVar env name.lexeme v, .ok v)
      | none => (st.defineVar env name.lexeme .Nil, .ok .Nil)
  | f + 1, locals, st, env, .Block stmts =>
      match IState.alloc st ⟨[], some env⟩ with
      | (st1, envNew) =>
          match execBlock f locals st1 envNew stmts with
          | (st2, .error e) => (st2, .error e)
          | (st2, .ok _) => (st2, .ok .Nil)
  | f + 1, locals, st, env, .IfStatement c t els =>
      match evalExpr f locals st env c with
      | (st1, .error e) => (st1, .error e)
      | (st1, .ok cv) =>
          if is_truthy cv then
            match execStmt f locals st1 env t with
            | (st2, .error e) => (st2, .error e)
            | (st2, .ok _) => (st2, .ok .Nil)
          else
            match els with
            | some b =>
                match execStmt f locals st1 env b with
                | (st2, .error e) => (st2, .error e)
                | (st2, .ok _) => (st2, .ok .Nil)
            | none => (st1, .ok .Nil)
  | f + 1, locals, st, env, .WhileStmt c b => whileIter f locals st env c b
  | f + 1, locals, st, env, .ForStmt init c inc b =>
      match IState.alloc st ⟨[], some env⟩ with
      | (st1, loopEnv) =>
          match init with
          | some i =>
              match execStmt f locals st1 loopEnv i with
              | (st2, .error e) => (st2, .error e)
              | (st2, .ok _) => forIter f locals st2 loopEnv c inc b
          | none => forIter f locals st1 loopEnv c inc b
  | _ + 1, _, st, _, .BreakStmt => (st, .error breakSignal)
  | _ + 1, _, st, _, .ContinueStmt => (st, .error continueSignal)
  | _ + 1, _, st, env, .FunctionStmt name params body =>
      let fn : LoxFunctionM :=
        { name := name.lexeme, params := params.map (fun p => p.lexeme),
          body := body, closure := env, is_initializer := false }
      (st.defineVar env name.lexeme (.Callable (.LoxFunction fn)), .ok .Nil)
  | f + 1, locals, st, env, .ReturnStmt _ val =>
      match val with
      | some e =>
          match evalExpr f locals st env e with
          | (st1, .error err) => (st1, .error err)
          | (st1, .ok v) => (st1, .error (.ReturnError (some v)))
      | none => (st, .error (.ReturnError (some .Nil)))
  | _ + 1, _, st, _, .ClassDecl _ _ =>
      (st, .error (.Unmodelled "no visit_class_decl in the interpreter"))
termination_by structural fu locals st env s => fu

/-- `Interpreter::execute_block` (and the identical statement loop of
`Interpreter::interpret`): execute in order, stopping at the first error;
the caller's cursor is untouched (automatic here via the `env` argument). -/
def execBlock : Nat → LocalsTable → IState → Nat → List Stmt →
    IState × Except LoxError Unit
  | 0, _, st, _, _ => (st, .error .OutOfFuel)
  | _ + 1, _, st, _, [] => (st, .ok ())
  | f + 1, locals, st, env, s :: rest =>
      match execStmt f locals st env s with
      | (st1, .error e) => (st1, .error e)
      | (st1, .ok _) => execBlock f locals st1 env rest
termination_by structural fu locals st env stmts => fu

/-- One spin of `visit_while_stmt`'s loop: re-evaluate the condition, run
the body, consume a BREAK-tagged error by exiting and a CONTINUE-tagged one
by re-entering; propagate every other error. -/
def whileIter : Nat → LocalsTable → IState → Nat → Expr → Stmt →
    IState × Except LoxError Value
  | 0, _, st, _, _, _ => (st, .error .OutOfFuel)
  | f + 1, locals, st, env, c, b =>
      match evalExpr f locals st env c with
      | (st1, .error e) => (st1, .error e)
      | (st1, .ok cv) =>
          if !is_truthy cv then (st1, .ok .Nil)
          else
            match execStmt f locals st1 env b with
            | (st2, .ok _) => whileIter f locals st2 env c b
            | (st2, .error (.RuntimeError tok msg)) =>
                if tok.type_ == .BREAK then (st2, .ok .Nil)
                else if tok.type_ == .CONTINUE then whileIter f locals st2 env c b
                else (st2, .error (.RuntimeError tok msg))
            | (st2, .error e) => (st2, .error e)
termination_by structural fu locals st env c b => fu

/-- One spin of `visit_for_stmt`'s `loop`: condition check, body, then the
error dispatch — a CONTINUE-tagged error re-enters the loop *without*
reaching the increment evaluation below it (the Rust `continue` jumps to
the top of `loop`), while a normal body completion evaluates the increment
and re-enters. -/
def forIter : Nat → LocalsTable → IState → Nat → Option Expr → Option Expr → Stmt →
    IState × Except LoxError Value
  | 0, _, st, _, _, _, _ => (st, .error .OutOfFuel)
  | f + 1, locals, st, env, c, inc, b =>
      match (match c with
             | some ce => evalExpr f locals st env ce
             | none => (st, .ok (.Bool true))) with
      | (st1, .error e) => (st1, .error e)
      | (st1, .ok cv) =>
          if !is_truthy cv then (st1, .ok .Nil)
          else
            match execStmt f locals st1 env b with
            | (st2, .error (.RuntimeError tok msg)) =>
                if tok.type_ == .BREAK then (st2, .ok .Nil)
                else if tok.type_ == .CONTINUE then forIter f locals st2 env c inc b
                else (st2, .error (.RuntimeError tok msg))
            | (st2, .error e) => (st2, .error e)
            | (st2, .ok _) =>
                match inc with
                | some ie =>
                    match evalExpr f locals st2 env ie with
                    | (st3, .error e) => (st3, .error e)
                    | (st3, .ok _) => forIter f locals st3 env c inc b
                | none => forIter f locals st2 env c inc b
termination_by structural fu locals st env c inc b => fu

/-- `LoxFunction::call` from `src/callable.rs`: bind parameters in a fresh
environment whose parent is the *closure*, run the body through
`execute_block`, then convert the outcome — `Ok` becomes `nil`;
a `ReturnError` carrying a value becomes that value, or `this` read from
the closure when `is_initializer`; a `ReturnError` without a value becomes
`nil`; every other error (runtime errors *and* the BREAK/CONTINUE-tagged
signals) is forwarded to the caller unchanged. -/
def callFunction : Nat → LocalsTable → IState → LoxFunctionM → List Value →
    IState × Except LoxError Value
  | 0, _, st, _, _ => (st, .error .OutOfFuel)
  | f + 1, locals, st, fn, args =>
      match IState.alloc st ⟨bindParams fn.params args, some fn.closure⟩ with
      | (st1, envId) =>
          match execBlock f locals st1 envId fn.body with
          | (st2, .ok _) => (st2, .ok .Nil)
          | (st2, .error (.ReturnError v)) =>
              match v with
              | some value =>
                  if fn.is_initializer then
                    match heapGet f st2 fn.closure "this" with
                    | .ok thisVal => (st2, .ok thisVal)
                    | .error e => (st2, .error e)
                  else (st2, .ok value)
              | none => (st2, .ok .Nil)
          | (st2, .error e) => (st2, .error e)
termination_by structural fu locals st fn args => fu

end

/-- `Interpreter::new`: a fresh global environment holding the `clock`
native, an empty output sink — and, on the `Interpreter` itself, an empty
`locals` table. -/
def initState : IState :=
  { heap := [⟨[("clock", .Callable (.NativeFunction "clock" 0))], none⟩], output := [] }

/-- `Interpreter::interpret`: execute the program's statements in order
against the global environment (index 0), stopping at and returning the
first error. -/
def interpret (fuel : Nat) (locals : LocalsTable) (st : IState) (stmts : List Stmt) :
    IState × Except LoxError Unit :=
  execBlock fuel locals st 0 stmts

end Interp

/-- `Lox::run` from `src/lox.rs`, from the point the parser has produced
the statements (scanner and parser are outside the core, per the spec):
the statements are handed directly to `self.interpreter.interpret`.  No
resolver runs — `main.rs` declares no `resolver` module and `run` never
constructs one — so the interpreter of `Lox::new` still carries its empty
`locals` table. -/
def Lox.run (fuel : Nat) (stmts : List Stmt) : Interp.IState × Except LoxError Unit :=
  Interp.interpret fuel [] Interp.initState stmts

/-- The pipeline the spec describes at the host boundary (`resolve-then-
interpret`): run the static resolution pass; when it reports an error,
execution must not begin; otherwise interpret with the resolver-produced
distance table.  This definition follows the spec's words (for comparison
with `Lox.run`, which is the source's behaviour). -/
def specResolveThenInterpret (fuel : Nat) (stmts : List Stmt) :
    Interp.IState × Except LoxError Unit :=
  match Resolve.resolveProgram fuel stmts with
  | .error msg => (Interp.initState, .error (.Crash msg))
  | .ok rs => Interp.interpret fuel rs.locals Interp.initState stmts

/-- An identifier token (line 0, no literal payload). -/
def tokIdent (s : String) : Token := ⟨.IDENTIFIER, s, 0, none⟩

/-- The `return` keyword token. -/
def tokReturn : Token := ⟨.RETURN, "return", 0, none⟩

/-- The program `class C { init() { return 42; } }`. -/
def initReturnsValueProg : List Stmt :=
  [.ClassDecl (tokIdent "C")
    [(tokIdent "init", [], [.ReturnStmt tokReturn (some (.Literal (.Number 42)))])]]

/-- The `-` operator token. -/
def tokMinus : Token := ⟨.MINUS, "-", 0, none⟩

/-- The `+` operator token. -/
def tokPlus : Token := ⟨.PLUS, "+", 0, none⟩

/-- The `<` operator token. -/
def tokLess : Token := ⟨.LESS, "<", 0, none⟩

/-- The closing-parenthesis token a call expression carries for error
reporting. -/
def tokParen : Token := ⟨.RIGHT_PAREN, ")", 0, none⟩

/-- The program `print 1; return 2;` — statically invalid (top-level
`return`), so under the spec's pipeline execution must never begin. -/
def topLevelReturnProg : List Stmt :=
  [.Print (.Literal (.Number 1)),
   .ReturnStmt tokReturn (some (.Literal (.Number 2)))]

/-- C1 counterexample: the host entry point does not run the resolver.  On
`print 1; return 2;` the resolution pass (had it run) aborts with the
top-level-return static error, and the spec's resolve-then-interpret
pipeline produces no output; yet `Lox::run` prints `1` — interpretation
started on a program that does not resolve — and surfaces the raw
`ReturnError` control-flow signal of the top-level `return`. -/
theorem C1_run_skips_resolution :
    Resolve.resolveProgram 100 topLevelReturnProg
      = .error "Cannot return from top-level code."
    ∧ (Lox.run 100 topLevelReturnProg).1.output = ["1"]
    ∧ (Lox.run 100 topLevelReturnProg).2 = .error (.ReturnError (some (Value.Number 2)))
    ∧ (specResolveThenInterpret 100 topLevelReturnProg).1.output = [] :=
  ⟨rfl, rfl, rfl, rfl⟩

/-- C1 amended: `Lox::run` hands the parsed statements straight to
`Interpreter::interpret` with the fresh interpreter's empty
expression-to-distance table (`main.rs` declares no resolver module and
`run` never constructs one), so interpretation begins even on programs
whose resolution fails — where the spec's pipeline stops before producing
any output. -/
theorem C1_amended_interpret_without_resolver (fuel : Nat) (stmts : List Stmt)
    (msg : String) (h : Resolve.resolveProgram fuel stmts = .error msg) :
    (specResolveThenInterpret fuel stmts).1.output = []
    ∧ Lox.run fuel stmts = Interp.interpret fuel [] Interp.initState stmts
    ∧ (∀ e : Expr, localsGet [] e = none) := by
  refine ⟨?_, rfl, fun _ => rfl⟩
  unfold specResolveThenInterpret
  rw [h]
  rfl

/-- C1 amended witness: on `print 1; return 2;`, whose resolution fails,
the source pipeline still interprets (with the empty table) while the
spec's pipeline yields no output. -/
theorem C1_amended_witness :
    (specResolveThenInterpret 100 topLevelReturnProg).1.output = []
    ∧ Lox.run 100 topLevelReturnProg
      = Interp.interpret 100 [] Interp.initState topLevelReturnProg :=
  ⟨(C1_amended_interpret_without_resolver 100 topLevelReturnProg
      "Cannot return from top-level code." rfl).1,
   (C1_amended_interpret_without_resolver 100 topLevelReturnProg
      "Cannot return from top-level code." rfl).2.1⟩

/-- A state in which environment 1 is a method-binding environment: it
defines `this` to be the instance in cell 0 and encloses the globals —
exactly what `LoxFunction::bind` builds as the closure of a bound method. -/
def thisBoundState : Interp.IState :=
  { heap := [⟨[("clock", .Callable (.NativeFunction "clock" 0))], none⟩,
             ⟨[("this", Value.Instance 0)], some 0⟩],
    output := [] }

/-- An initializer (`is_initializer = true`) bound over `thisBoundState`'s
environment 1, with an empty body. -/
def initEmptyBody : LoxFunctionM :=
  { name := "init", params := [], body := [], closure := 1, is_initializer := true }

/-- The same initializer with body `return;`. -/
def initBareReturn : LoxFunctionM :=
  { name := "init", params := [], body := [.ReturnStmt tokReturn none],
    closure := 1, is_initializer := true }

/-- The same initializer with body `return 5;`. -/
def initReturnsFive : LoxFunctionM :=
  { name := "init", params := [], body := [.ReturnStmt tokReturn (some (.Literal (.Number 5)))],
    closure := 1, is_initializer := true }

/-- C2: evaluation of the code at the failing input.  Calling a bound
initializer whose body completes without executing any `return` yields
`nil`, not the instance (`LoxFunction::call` maps an `Ok` body outcome to
`Nil` before the `is_initializer` check is ever consulted).  The other two
completion modes do yield the instance: `visit_return_stmt` always wraps
`Some(value)` (a bare `return;` wraps `Some(Nil)`), and the `Some` branch
of the call returns `this` for initializers. -/
theorem C2_initializer_call_results :
    (Interp.callFunction 100 [] thisBoundState initEmptyBody []).2 = .ok Value.Nil
    ∧ (Interp.callFunction 100 [] thisBoundState initBareReturn []).2
      = .ok (Value.Instance 0)
    ∧ (Interp.callFunction 100 [] thisBoundState initReturnsFive []).2
      = .ok (Value.Instance 0) :=
  ⟨rfl, rfl, rfl⟩

/-- A function `fun f() { break; }` closed over the globals. -/
def fBreak : LoxFunctionM :=
  { name := "f", params := [], body := [.BreakStmt], closure := 0, is_initializer := false }

/-- The program `fun f() { break; } while (true) print f(); print 9;`. -/
def breakThroughCallProg : List Stmt :=
  [.FunctionStmt (tokIdent "f") [] [.BreakStmt],
   .WhileStmt (.Literal (.Bool true))
     (.Print (.Call (.Variable (tokIdent "f")) tokParen [])),
   .Print (.Literal (.Number 9))]

/-- C3 counterexample: a `break` executed inside a called function's body
is *not* consumed at the function-call boundary — `LoxFunction::call`
forwards the BREAK-tagged runtime error to the caller — and it *does*
terminate the caller's loop: `while (true) print f();` with
`fun f() { break; }` exits the (condition-`true`) loop and the program
completes normally, printing only the trailing `9`. -/
theorem C3_break_crosses_call_boundary :
    (Interp.callFunction 100 [] Interp.initState fBreak []).2 = .error Interp.breakSignal
    ∧ (Lox.run 200 breakThroughCallProg).1.output = ["9"]
    ∧ (Lox.run 200 breakThroughCallProg).2 = .ok () :=
  ⟨rfl, rfl, rfl⟩

/-- C3 amended: break/continue signals are BREAK/CONTINUE-tagged runtime
errors; `LoxFunction::call` forwards every non-`ReturnError` outcome of the
body — these signals included — to the caller unchanged, and the caller's
nearest enclosing loop then consumes a BREAK-tagged error as its own
`break`.  The signals thus unwind past function-call boundaries, up to the
nearest loop of any enclosing call frame. -/
theorem C3_amended_signals_leak_to_callers_loop :
    (∀ (fuel : Nat) (locals : LocalsTable) (st st2 : Interp.IState) (fn : LoxFunctionM)
        (args : List Value) (tok : Token) (msg : String),
      Interp.execBlock fuel locals
          { st with heap := st.heap ++ [⟨Interp.bindParams fn.params args, some fn.closure⟩] }
          st.heap.length fn.body = (st2, .error (.RuntimeError tok msg)) →
      Interp.callFunction (fuel + 1) locals st fn args = (st2, .error (.RuntimeError tok msg)))
    ∧ (∀ (fuel : Nat) (locals : LocalsTable) (st st1 st2 : Interp.IState) (env : Nat)
        (c : Expr) (b : Stmt) (cv : Value) (tok : Token) (msg : String),
      Interp.evalExpr fuel locals st env c = (st1, .ok cv) →
      Interp.is_truthy cv = true →
      Interp.execStmt fuel locals st1 env b = (st2, .error (.RuntimeError tok msg)) →
      tok.type_ = .BREAK →
      Interp.whileIter (fuel + 1) locals st env c b = (st2, .ok Value.Nil)) := by
  constructor
  · intro fuel locals st st2 fn args tok msg h
    simp only [Interp.callFunction, Interp.IState.alloc]
    rw [h]
  · intro fuel locals st st1 st2 env c b cv tok msg hc htruthy hb htok
    simp only [Interp.whileIter]
    rw [hc]
    simp only [htruthy, Bool.not_true, Bool.false_eq_true, if_false]
    rw [hb]
    simp [htok]

/-- C3 amended witness: the forwarding applied to the concrete
`fun f() { break; }` call, and the loop consumption applied to a loop whose
body raises the break signal. -/
theorem C3_amended_witness :
    Interp.callFunction 100 [] Interp.initState fBreak []
      = ({ heap := Interp.initState.heap ++ [⟨[], some 0⟩], output := [] },
         .error (.RuntimeError ⟨.BREAK, "break", 0, none⟩ "Break statement encountered."))
    ∧ Interp.whileIter 11 [] Interp.initState 0 (.Literal (.Bool true)) .BreakStmt
      = (Interp.initState, .ok Value.Nil) := by
  constructor
  · exact C3_amended_signals_leak_to_callers_loop.1 99 [] Interp.initState
      { heap := Interp.initState.heap ++ [⟨[], some 0⟩], output := [] } fBreak []
      ⟨.BREAK, "break", 0, none⟩ "Break statement encountered." rfl
  · exact C3_amended_signals_leak_to_callers_loop.2 10 [] Interp.initState
      Interp.initState Interp.initState 0 (.Literal (.Bool true)) .BreakStmt
      (.Bool true) ⟨.BREAK, "break", 0, none⟩ "Break statement encountered." rfl rfl rfl rfl

/-- The program `for (var i = 0; i < 1; i = i + 1) continue;`. -/
def forContinueProg : List Stmt :=
  [.ForStmt (some (.VarDeclaration (tokIdent "i") (some (.Literal (.Number 0)))))
     (some (.Binary (.Variable (tokIdent "i")) tokLess (.Literal (.Number 1))))
     (some (.Assignment (tokIdent "i") (.Binary (.Variable (tokIdent "i")) tokPlus (.Literal (.Number 1)))))
     .ContinueStmt]

/-- The same loop with an empty block instead of `continue` as its body. -/
def forEmptyBodyProg : List Stmt :=
  [.ForStmt (some (.VarDeclaration (tokIdent "i") (some (.Literal (.Number 0)))))
     (some (.Binary (.Variable (tokIdent "i")) tokLess (.Literal (.Number 1))))
     (some (.Assignment (tokIdent "i") (.Binary (.Variable (tokIdent "i")) tokPlus (.Literal (.Number 1)))))
     (.Block [])]

/-- C4: evaluation of the code at the failing input.  In
`for (var i = 0; i < 1; i = i + 1) continue;` the CONTINUE-tagged error
makes `visit_for_stmt`'s Rust `continue` jump back to the condition check,
*skipping* the increment evaluation below it (despite the source comment
saying the increment also runs on `continue`): the loop variable stays `0`
forever and the loop never terminates (fuel exhaustion at every fuel, here
50).  The identical loop with an empty body instead of `continue` runs the
increment and terminates with `i = 1`. -/
theorem C4_continue_skips_increment :
    (Lox.run 50 forContinueProg).2 = .error .OutOfFuel
    ∧ ((Lox.run 50 forContinueProg).1.heap.get? 1).map (fun fr => VarMap.getVal fr.values "i")
      = some (some (Value.Number 0))
    ∧ (Lox.run 50 forEmptyBodyProg).2 = .ok ()
    ∧ ((Lox.run 50 forEmptyBodyProg).1.heap.get? 1).map (fun fr => VarMap.getVal fr.values "i")
      = some (some (Value.Number 1)) :=
  ⟨rfl, rfl, rfl, rfl⟩

/-- The program `-"s"; print 7;` (an expression statement whose expression
evaluation raises a type error, followed by a print). -/
def swallowedErrorProg : List Stmt :=
  [.Expression (.Unary tokMinus (.Literal (.String "s"))),
   .Print (.Literal (.Number 7))]

/-- C6: evaluation of the code at the failing input.  Evaluating `-"s"`
raises the operand type error, but `visit_expression_stmt` evaluates its
expression without `?` and unconditionally returns `Ok(Nil)`: the error is
discarded, execution continues, the following `print 7` runs, and the whole
interpretation reports success — instead of propagating the runtime error
to the caller as the claim requires. -/
theorem C6_expression_stmt_swallows_error :
    Interp.evalExpr 100 [] Interp.initState 0 (.Unary tokMinus (.Literal (.String "s")))
      = (Interp.initState, .error (.RuntimeError tokMinus "Operand must be a number."))
    ∧ Lox.run 100 swallowedErrorProg = ({ Interp.initState with output := ["7"] }, .ok ()) :=
  ⟨rfl, rfl⟩

/-- C7: evaluation of the code at the failing input.  Resolving
`class C { init() { return 42; } }` succeeds — `visit_class_decl` resolves
every method with `FunctionType::Method`, never `Initializer`, so the
`return <value>` check the claim describes is unreachable from a class
declaration — even though the check itself exists: resolving the same
return statement with `current_function = Initializer` does panic with
"Cannot return a value from an initializer.". -/
theorem C7_init_return_value_accepted :
    (Resolve.resolveProgram 100 initReturnsValueProg).isOk = true
    ∧ Resolve.resolveStmt 10
        { Resolve.RState.initial with current_function := .Initializer }
        (.ReturnStmt tokReturn (some (.Literal (.Number 42))))
      = .error "Cannot return a value from an initializer." :=
  ⟨rfl, rfl⟩

/-!
## Instances and method binding, `src/callable.rs`

`Rc<RefCell<LoxInstance>>` cells are modelled as indices into an instance
arena, so that cell identity (and hence which cell a field write lands in)
is explicit.  `LoxFunction::bind` allocates a fresh closure environment
defining `this`; the model keeps the bound method together with the arena
cell its `this` denotes — which is all the bound closure adds.
-/

namespace Inst

/-- `struct LoxInstance`: the owning class (a shared, never-mutated
`Rc<LoxClass>`) and the mutable field map. -/
structure LoxInstanceM where
  class_ : LoxClassM
  fields : VarMap
deriving Repr

/-- The arena of `Rc<RefCell<LoxInstance>>` cells. -/
abbrev InstHeap := List LoxInstanceM

/-- `LoxClass::find_method` (`HashMap::get` on the method table). -/
def findMethod (c : LoxClassM) (name : String) : Option LoxFunctionM :=
  (c.methods.find? (fun p => p.1 == name)).map (fun p => p.2)

/-- What a property access produces: a field's value, or a method bound to
the `this` cell `thisRef`. -/
inductive GetResult where
  | field (v : Value)
  | boundMethod (m : LoxFunctionM) (thisRef : Nat)
deriving Repr

/-- `LoxInstance::get` on cell `i`: instance fields first
(`contains_key` then `get(..).unwrap()`); otherwise the class's method
table, where the method is bound via
`method.bind(Rc::new(RefCell::new(self.clone())))` — a *new* cell holding a
deep copy of cell `i`'s instance is allocated and becomes the bound
method's `this`; otherwise the undefined-property runtime error. -/
def instanceGet (h : InstHeap) (i : Nat) (name : String) :
    Except LoxError (GetResult × InstHeap) :=
  match h.get? i with
  | none => .error (.Crash "instance id out of range")
  | some inst =>
      if VarMap.containsKey inst.fields name then
        match VarMap.getVal inst.fields name with
        | some v => .ok (.field v, h)
        | none => .error (.Crash "called unwrap on a None value")
      else
        match findMethod inst.class_ name with
        | some m => .ok (.boundMethod m h.length, h ++ [inst])
        | none =>
            .error (.RuntimeError ⟨.IDENTIFIER, name, 0, none⟩
              ("Undefined property " ++ name ++ "."))

/-- `LoxInstance::set` through cell `i`: always writes the cell's field
map (fields shadow methods). -/
def instanceSet (h : InstHeap) (i : Nat) (name : String) (v : Value) : InstHeap :=
  match h.get? i with
  | some inst => h.set i { inst with fields := VarMap.insertVal inst.fields name v }
  | none => h

end Inst

/-- C10: when a property lookup on an instance falls through to the class
method table, the returned bound method's `this` is a fresh arena cell
(`h.length`) holding a deep copy of the instance — not the instance's own
cell `i`.  Consequently a later field write through the bound `this` leaves
cell `i` exactly as it was (the original's field map sees nothing), and a
field write on the original cell `i` leaves the bound copy exactly as it
was (the bound `this` sees nothing). -/
theorem C10_bind_deep_copies_instance (h : Inst.InstHeap) (i : Nat)
    (inst : Inst.LoxInstanceM) (name : String) (m : LoxFunctionM)
    (hget : h.get? i = some inst)
    (hnofield : VarMap.containsKey inst.fields name = false)
    (hmethod : Inst.findMethod inst.class_ name = some m) :
    Inst.instanceGet h i name = .ok (.boundMethod m h.length, h ++ [inst])
    ∧ h.length ≠ i
    ∧ (∀ fname v, (Inst.instanceSet (h ++ [inst]) h.length fname v).get? i = some inst)
    ∧ (∀ fname v, (Inst.instanceSet (h ++ [inst]) i fname v).get? h.length = some inst) := by
  have hlt : i < h.length := by
    have := List.get?_eq_some.mp hget
    exact this.1
  have hne : h.length ≠ i := Nat.ne_of_gt hlt
  refine ⟨?_, hne, ?_, ?_⟩
  · unfold Inst.instanceGet
    rw [hget]
    simp [hnofield, hmethod]
  · intro fname v
    unfold Inst.instanceSet
    have hlast : (h ++ [inst]).get? h.length = some inst := by
      simp [List.get?_eq_getElem?, List.getElem?_append_right]
    rw [hlast]
    rw [List.get?_eq_getElem?]
    rw [List.getElem?_set_ne (by omega)]
    rw [List.getElem?_append_left hlt]
    rw [← List.get?_eq_getElem?]
    exact hget
  · intro fname v
    unfold Inst.instanceSet
    have hfirst : (h ++ [inst]).get? i = some inst := by
      rw [List.get?_eq_getElem?, List.getElem?_append_left hlt, ← List.get?_eq_getElem?]
      exact hget
    rw [hfirst]
    rw [List.get?_eq_getElem?]
    rw [List.getElem?_set_ne (by omega)]
    simp [List.getElem?_append_right]

/-- A one-method class used by the C10 witness. -/
def witClass : LoxClassM :=
  { name := "C",
    methods := [("m", { name := "m", params := [], body := [], closure := 0,
                        is_initializer := false })] }

/-- C10 witness: the theorem applied to a one-cell arena whose instance has
no fields and whose class has method `m` — the bound `this` is the fresh
cell 1, and writes through either cell are invisible at the other. -/
theorem C10_bind_deep_copies_witness :
    Inst.instanceGet [⟨witClass, []⟩] 0 "m"
      = .ok (.boundMethod { name := "m", params := [], body := [], closure := 0,
                            is_initializer := false } 1,
             [⟨witClass, []⟩, ⟨witClass, []⟩])
    ∧ (Inst.instanceSet [⟨witClass, []⟩, ⟨witClass, []⟩] 1 "x" (Value.Number 3)).get? 0
      = some ⟨witClass, []⟩
    ∧ (Inst.instanceSet [⟨witClass, []⟩, ⟨witClass, []⟩] 0 "x" (Value.Number 3)).get? 1
      = some ⟨witClass, []⟩ :=
  ⟨(C10_bind_deep_copies_instance [⟨witClass, []⟩] 0 ⟨witClass, []⟩ "m" _ rfl rfl rfl).1,
   (C10_bind_deep_copies_instance [⟨witClass, []⟩] 0 ⟨witClass, []⟩ "m" _ rfl rfl rfl).2.2.1
     "x" (Value.Number 3),
   (C10_bind_deep_copies_instance [⟨witClass, []⟩] 0 ⟨witClass, []⟩ "m" _ rfl rfl rfl).2.2.2
     "x" (Value.Number 3)⟩

end LoxModel
